import Mathlib

/-!
Verification development for the layered-plan service supervisor.

The definitions below are a shallow embedding of the Go sources:
Go maps become association lists, Go pointers become plain values
(so a deep `Copy` becomes the identity), `time.Duration` becomes
nanoseconds as `Nat`, fallible functions return `Except`.
-/

/-- Decidable equality for `Except` results, used to evaluate concrete
runs of the embedded operations. -/
instance {ε α : Type} [DecidableEq ε] [DecidableEq α] : DecidableEq (Except ε α) :=
  fun x y =>
    match x, y with
    | .ok a, .ok b =>
      if h : a = b then .isTrue (by rw [h]) else .isFalse (by simp [h])
    | .ok _, .error _ => .isFalse (by simp)
    | .error _, .ok _ => .isFalse (by simp)
    | .error e, .error f =>
      if h : e = f then .isTrue (by rw [h]) else .isFalse (by simp [h])

namespace PlanModel

/-- `Override` specifies the layer override mechanism for an object
(a Go string type; `invalid` covers every string other than the three
named constants, matching the `default` case of the combine switches). -/
inductive Override where
  | unknown
  | merge
  | replace
  | invalid (value : String)
deriving DecidableEq, Repr

/-- `plan.OptionalDuration`: a duration in nanoseconds plus the flag
recording whether the YAML supplied it. -/
structure OptionalDuration where
  value : Nat
  isSet : Bool
deriving DecidableEq, Repr

/-- `plan.OptionalFloat` (value modelled as a rational). -/
structure OptionalFloat where
  value : ℚ
  isSet : Bool
deriving DecidableEq, Repr

/-- Association-list lookup, modelling Go map indexing. -/
def alookup {α : Type} : List (String × α) → String → Option α
  | [], _ => none
  | (k, v) :: rest, key => if k = key then some v else alookup rest key

/-- Association-list insert/update, modelling Go map assignment. -/
def aupsert {α : Type} : List (String × α) → String → α → List (String × α)
  | [], key, val => [(key, val)]
  | (k, v) :: rest, key, val =>
    if k = key then (key, val) :: rest else (k, v) :: aupsert rest key val

/-- Merge every entry of `other` into `m`, modelling the
`for k, v := range other { m[k] = v }` pattern. -/
def amergeInto {α : Type} (m other : List (String × α)) : List (String × α) :=
  other.foldl (fun acc kv => aupsert acc kv.1 kv.2) m

def defaultBackoffDelay : Nat := 500000000
def defaultBackoffFactor : ℚ := 2
def defaultBackoffLimit : Nat := 30000000000
def defaultCheckPeriod : Nat := 10000000000
def defaultCheckTimeout : Nat := 3000000000
def defaultCheckThreshold : Nat := 3

/-- `plan.Service` (part_005): one service entry of a layer. String-typed
Go enums (`ServiceStartup`, `ServiceAction`, `CheckLevel`) stay strings. -/
structure Service where
  name : String
  summary : String
  description : String
  startup : String
  override : Override
  command : String
  after : List String
  before : List String
  requires : List String
  environment : List (String × String)
  userID : Option Int
  user : String
  groupID : Option Int
  group : String
  workingDir : String
  onSuccess : String
  onFailure : String
  onCheckFailure : List (String × String)
  backoffDelay : OptionalDuration
  backoffFactor : OptionalFloat
  backoffLimit : OptionalDuration
  killDelay : OptionalDuration
deriving DecidableEq, Repr

/-- `Service.Copy` deep-copies the service; with value semantics this is
the identity, kept as a named function to mirror the source. -/
def Service.copy (s : Service) : Service := s

/-- `Service.Merge`: merge the fields set in `other` into `s`, field by
field as in the source (lists append; maps upsert each entry). -/
def Service.merge (s other : Service) : Service :=
  { s with
    summary := if other.summary ≠ "" then other.summary else s.summary
    description := if other.description ≠ "" then other.description else s.description
    startup := if other.startup ≠ "" then other.startup else s.startup
    command := if other.command ≠ "" then other.command else s.command
    killDelay := if other.killDelay.isSet then other.killDelay else s.killDelay
    userID := if other.userID.isSome then other.userID else s.userID
    user := if other.user ≠ "" then other.user else s.user
    groupID := if other.groupID.isSome then other.groupID else s.groupID
    group := if other.group ≠ "" then other.group else s.group
    workingDir := if other.workingDir ≠ "" then other.workingDir else s.workingDir
    after := s.after ++ other.after
    before := s.before ++ other.before
    requires := s.requires ++ other.requires
    environment := amergeInto s.environment other.environment
    onSuccess := if other.onSuccess ≠ "" then other.onSuccess else s.onSuccess
    onFailure := if other.onFailure ≠ "" then other.onFailure else s.onFailure
    onCheckFailure := amergeInto s.onCheckFailure other.onCheckFailure
    backoffDelay := if other.backoffDelay.isSet then other.backoffDelay else s.backoffDelay
    backoffFactor := if other.backoffFactor.isSet then other.backoffFactor else s.backoffFactor
    backoffLimit := if other.backoffLimit.isSet then other.backoffLimit else s.backoffLimit }

/-- `plan.HTTPCheck`. -/
structure HTTPCheck where
  url : String
  headers : List (String × String)
deriving DecidableEq, Repr

def HTTPCheck.copy (c : HTTPCheck) : HTTPCheck := c

def HTTPCheck.merge (c other : HTTPCheck) : HTTPCheck :=
  { url := if other.url ≠ "" then other.url else c.url
    headers := amergeInto c.headers other.headers }

/-- `plan.TCPCheck`. -/
structure TCPCheck where
  port : Nat
  host : String
deriving DecidableEq, Repr

def TCPCheck.copy (c : TCPCheck) : TCPCheck := c

def TCPCheck.merge (c other : TCPCheck) : TCPCheck :=
  { port := if other.port ≠ 0 then other.port else c.port
    host := if other.host ≠ "" then other.host else c.host }

/-- `plan.ExecCheck`. -/
structure ExecCheck where
  command : String
  serviceContext : String
  environment : List (String × String)
  userID : Option Int
  user : String
  groupID : Option Int
  group : String
  workingDir : String
deriving DecidableEq, Repr

def ExecCheck.copy (c : ExecCheck) : ExecCheck := c

def ExecCheck.merge (c other : ExecCheck) : ExecCheck :=
  { command := if other.command ≠ "" then other.command else c.command
    serviceContext := if other.serviceContext ≠ "" then other.serviceContext else c.serviceContext
    environment := amergeInto c.environment other.environment
    userID := if other.userID.isSome then other.userID else c.userID
    user := if other.user ≠ "" then other.user else c.user
    groupID := if other.groupID.isSome then other.groupID else c.groupID
    group := if other.group ≠ "" then other.group else c.group
    workingDir := if other.workingDir ≠ "" then other.workingDir else c.workingDir }

/-- `plan.Check`: one health-check entry of a layer. -/
structure Check where
  name : String
  override : Override
  level : String
  period : OptionalDuration
  timeout : OptionalDuration
  threshold : Nat
  http : Option HTTPCheck
  tcp : Option TCPCheck
  exec : Option ExecCheck
deriving DecidableEq, Repr

def Check.copy (c : Check) : Check := c

/-- `Check.Merge`: merge the fields set in `other` into `c`. Where the Go
code lazily allocates an empty sub-struct before merging, the model
merges into the corresponding zero value. -/
def Check.merge (c other : Check) : Check :=
  { c with
    level := if other.level ≠ "" then other.level else c.level
    period := if other.period.isSet then other.period else c.period
    timeout := if other.timeout.isSet then other.timeout else c.timeout
    threshold := if other.threshold ≠ 0 then other.threshold else c.threshold
    http :=
      match other.http with
      | some oh => some ((c.http.getD ⟨"", []⟩).merge oh)
      | none => c.http
    tcp :=
      match other.tcp with
      | some ot => some ((c.tcp.getD ⟨0, ""⟩).merge ot)
      | none => c.tcp
    exec :=
      match other.exec with
      | some oe => some ((c.exec.getD ⟨"", "", [], none, "", none, "", ""⟩).merge oe)
      | none => c.exec }

/-- `plan.LogTarget`: one log-target entry of a layer. -/
structure LogTarget where
  name : String
  type : String
  location : String
  services : List String
  override : Override
  labels : List (String × String)
deriving DecidableEq, Repr

def LogTarget.copy (t : LogTarget) : LogTarget := t

def LogTarget.merge (t other : LogTarget) : LogTarget :=
  { t with
    type := if other.type ≠ "" then other.type else t.type
    location := if other.location ≠ "" then other.location else t.location
    services := t.services ++ other.services
    labels := amergeInto t.labels other.labels }

/-- `plan.FormatError`. -/
structure FormatError where
  message : String
deriving DecidableEq, Repr

/-- `plan.Layer` (part_005). Extension sections are registry-provided
opaque values combined by their own extensions; the pairing extension is
modelled separately in the `PairingExt` namespace. -/
structure Layer where
  order : Int
  label : String
  summary : String
  description : String
  services : List (String × Service)
  checks : List (String × Check)
  logTargets : List (String × LogTarget)
deriving DecidableEq, Repr

def emptyLayer : Layer :=
  { order := 0, label := "", summary := "", description := ""
    services := [], checks := [], logTargets := [] }

/-- One iteration of the `layer.Services` combine switch in
`Plan.CombineLayers`. -/
def combineServiceEntry (layerLabel : String) (acc : List (String × Service))
    (name : String) (service : Service) :
    Except FormatError (List (String × Service)) :=
  match service.override with
  | .merge =>
    match alookup acc name with
    | some old => .ok (aupsert acc name (old.copy.merge service))
    | none => .ok (aupsert acc name service.copy)
  | .replace => .ok (aupsert acc name service.copy)
  | .unknown =>
    .error ⟨"layer \"" ++ layerLabel ++ "\" must define \"override\" for service \""
      ++ service.name ++ "\""⟩
  | .invalid _ =>
    .error ⟨"layer \"" ++ layerLabel ++ "\" has invalid \"override\" value for service \""
      ++ service.name ++ "\""⟩

/-- One iteration of the `layer.Checks` combine switch in
`Plan.CombineLayers`. -/
def combineCheckEntry (layerLabel : String) (acc : List (String × Check))
    (name : String) (check : Check) :
    Except FormatError (List (String × Check)) :=
  match check.override with
  | .merge =>
    match alookup acc name with
    | some old => .ok (aupsert acc name (old.copy.merge check))
    | none => .ok (aupsert acc name check.copy)
  | .replace => .ok (aupsert acc name check.copy)
  | .unknown =>
    .error ⟨"layer \"" ++ layerLabel ++ "\" must define \"override\" for check \""
      ++ check.name ++ "\""⟩
  | .invalid _ =>
    .error ⟨"layer \"" ++ layerLabel ++ "\" has invalid \"override\" value for check \""
      ++ check.name ++ "\""⟩

/-- One iteration of the `layer.LogTargets` combine switch in
`Plan.CombineLayers`. -/
def combineLogTargetEntry (layerLabel : String) (acc : List (String × LogTarget))
    (name : String) (target : LogTarget) :
    Except FormatError (List (String × LogTarget)) :=
  match target.override with
  | .merge =>
    match alookup acc name with
    | some old => .ok (aupsert acc name (old.copy.merge target))
    | none => .ok (aupsert acc name target.copy)
  | .replace => .ok (aupsert acc name target.copy)
  | .unknown =>
    .error ⟨"layer \"" ++ layerLabel ++ "\" must define \"override\" for log target \""
      ++ target.name ++ "\""⟩
  | .invalid _ =>
    .error ⟨"layer \"" ++ layerLabel ++ "\" has invalid \"override\" value for log target \""
      ++ target.name ++ "\""⟩

/-- Fold a per-entry combine step over all entries of one layer section. -/
def combineEntries {α : Type}
    (step : String → List (String × α) → String → α → Except FormatError (List (String × α)))
    (layerLabel : String) (acc : List (String × α)) (entries : List (String × α)) :
    Except FormatError (List (String × α)) :=
  match entries with
  | [] => .ok acc
  | (name, entry) :: rest => do
    let acc' ← step layerLabel acc name entry
    combineEntries step layerLabel acc' rest

/-- Combine one layer into the accumulated combined layer (the body of the
`for _, layer := range layers` loop of `Plan.CombineLayers`). -/
def combineOneLayer (combined : Layer) (layer : Layer) : Except FormatError Layer := do
  let services ← combineEntries combineServiceEntry layer.label combined.services layer.services
  let checks ← combineEntries combineCheckEntry layer.label combined.checks layer.checks
  let logTargets ← combineEntries combineLogTargetEntry layer.label combined.logTargets layer.logTargets
  .ok { combined with services := services, checks := checks, logTargets := logTargets }

def combineAllLayers (combined : Layer) : List Layer → Except FormatError Layer
  | [] => .ok combined
  | layer :: rest => do
    let combined' ← combineOneLayer combined layer
    combineAllLayers combined' rest

/-- The backoff-default assignments at the end of `Plan.CombineLayers`
(`IsSet` stays false: only `Value` is replaced). -/
def applyServiceDefaults (s : Service) : Service :=
  { s with
    backoffDelay :=
      if s.backoffDelay.isSet then s.backoffDelay
      else { s.backoffDelay with value := defaultBackoffDelay }
    backoffFactor :=
      if s.backoffFactor.isSet then s.backoffFactor
      else { s.backoffFactor with value := defaultBackoffFactor }
    backoffLimit :=
      if s.backoffLimit.isSet then s.backoffLimit
      else { s.backoffLimit with value := defaultBackoffLimit } }

/-- The check-default assignments at the end of `Plan.CombineLayers`:
period and timeout defaults, the timeout-capped-to-period rule, and the
threshold default of 3. -/
def applyCheckDefaults (c : Check) : Check :=
  let period := if c.period.isSet then c.period
    else { c.period with value := defaultCheckPeriod }
  let timeout0 := if c.timeout.isSet then c.timeout
    else { c.timeout with value := defaultCheckTimeout }
  let timeout := if timeout0.value > period.value then
    { timeout0 with value := period.value } else timeout0
  let threshold := if c.threshold = 0 then defaultCheckThreshold else c.threshold
  { c with period := period, timeout := timeout, threshold := threshold }

/-- `Plan.CombineLayers` before the defaults pass: an empty combined
layer takes the last layer's summary/description and each layer is folded
in, in the given (ascending) order. -/
def combineLayersRaw (layers : List Layer) : Except FormatError Layer :=
  match layers with
  | [] => .ok emptyLayer
  | _ =>
    let last := (layers.getLast?).getD emptyLayer
    combineAllLayers
      { emptyLayer with summary := last.summary, description := last.description }
      layers

/-- `Plan.CombineLayers`: fold the layers then set defaults. -/
def combineLayers (layers : List Layer) : Except FormatError Layer := do
  let combined ← combineLayersRaw layers
  .ok { combined with
    services := combined.services.map (fun nv => (nv.1, applyServiceDefaults nv.2))
    checks := combined.checks.map (fun nv => (nv.1, applyCheckDefaults nv.2)) }

/-- The `p.Combined.Services` loop of `Plan.Validate`: every combined
service must define a command. -/
def validatePlanServices : List (String × Service) → Except FormatError Unit
  | [] => .ok ()
  | (name, service) :: rest =>
    if service.command = "" then
      .error ⟨"plan must define \"command\" for service \"" ++ name ++ "\""⟩
    else validatePlanServices rest

/-- One iteration of the `p.Combined.Checks` loop of `Plan.Validate`:
the sub-field checks and the `numTypes != 1` exclusivity check, written
as three explicit binds accumulating the type count. -/
def validatePlanCheck (services : List (String × Service)) (name : String)
    (c : Check) : Except FormatError Unit :=
  Except.bind
    (match c.http with
     | some h =>
       if h.url = "" then
         .error ⟨"plan must set \"url\" for http check \"" ++ name ++ "\""⟩
       else .ok 1
     | none => .ok 0) (fun nHttp =>
  Except.bind
    (match c.tcp with
     | some t =>
       if t.port = 0 then
         .error ⟨"plan must set \"port\" for tcp check \"" ++ name ++ "\""⟩
       else .ok 1
     | none => .ok 0) (fun nTcp =>
  Except.bind
    (match c.exec with
     | some e =>
       if e.command = "" then
         .error ⟨"plan must set \"command\" for exec check \"" ++ name ++ "\""⟩
       else if e.serviceContext ≠ "" ∧ (alookup services e.serviceContext).isNone then
         .error ⟨"plan check \"" ++ name ++ "\" service context specifies non-existent service \""
           ++ e.serviceContext ++ "\""⟩
       else .ok 1
     | none => .ok 0) (fun nExec =>
  if nHttp + nTcp + nExec ≠ 1 then
    .error ⟨"plan must specify one of \"http\", \"tcp\", or \"exec\" for check \"" ++ name ++ "\""⟩
  else .ok ())))

def validatePlanChecks (services : List (String × Service)) :
    List (String × Check) → Except FormatError Unit
  | [] => .ok ()
  | (name, c) :: rest => do
    validatePlanCheck services name c
    validatePlanChecks services rest

/-- One iteration of the `p.Combined.LogTargets` loop of `Plan.Validate`.
The Go switch errors only on an unset type here (other bad types were
already rejected per layer); service names are resolved after stripping
one `-` prefix, with `all` always accepted. -/
def validatePlanLogTarget (services : List (String × Service)) (name : String)
    (t : LogTarget) : Except FormatError Unit := do
  if t.type = "" then
    .error ⟨"plan must define \"type\" (\"loki\" or \"syslog\") for log target \"" ++ name ++ "\""⟩
  else
    let rec checkNames : List String → Except FormatError Unit
      | [] => .ok ()
      | sn :: rest =>
        let sn' := if sn.startsWith "-" then sn.drop 1 else sn
        if sn' = "all" then checkNames rest
        else
          match alookup services sn' with
          | some _ => checkNames rest
          | none =>
            .error ⟨"log target \"" ++ t.name ++ "\" specifies unknown service \"" ++ sn' ++ "\""⟩
    do
      checkNames t.services
      if t.location = "" then
        .error ⟨"plan must define \"location\" for log target \"" ++ name ++ "\""⟩
      else .ok ()

def validatePlanLogTargets (services : List (String × Service)) :
    List (String × LogTarget) → Except FormatError Unit
  | [] => .ok ()
  | (name, t) :: rest => do
    validatePlanLogTarget services name t
    validatePlanLogTargets services rest

/-- Direct before/after successors of a node, following `order`'s
successor-map construction: `name → after` edges, and `before` edges
reversed onto the other endpoint. -/
def orderSuccs (services : List (String × Service)) (n : String) : List String :=
  (match alookup services n with
   | some s => s.after.filter (fun a => (alookup services a).isSome)
   | none => [])
  ++ services.filterMap (fun nv =>
       if n ∈ nv.2.before ∧ (alookup services n).isSome then some nv.1 else none)

def reachExpand (services : List (String × Service)) (frontier : List String) :
    Nat → List String
  | 0 => frontier
  | fuel + 1 => reachExpand services (frontier ++ frontier.flatMap (orderSuccs services)) fuel

/-- Modelled from the spec: `Plan.checkCycles` calls `order`/`tarjanSort`,
and the `tarjanSort` source file is not under `src/`; the spec requires the
combined `requires`/`before`/`after` service graph to be acyclic and that
every required service exists. Acyclicity is decided by bounded
reachability over the before/after successor graph. -/
def checkCycles (services : List (String × Service)) : Except FormatError Unit :=
  match services.find? (fun nv =>
      nv.2.requires.any (fun r => (alookup services r).isNone)) with
  | some nv => .error ⟨"service \"" ++ nv.1 ++ "\" requires a service that does not exist"⟩
  | none =>
    if services.any (fun nv =>
        nv.1 ∈ reachExpand services (orderSuccs services nv.1) services.length) then
      .error ⟨"services in before/after loop"⟩
    else .ok ()

/-- `Plan.Validate` on the combined layer: service commands, check
exclusivity, log targets, then cycle detection, in source order.
Extension-section validation has no built-in behaviour to model. -/
def validate (combined : Layer) : Except FormatError Unit := do
  validatePlanServices combined.services
  validatePlanChecks combined.services combined.checks
  validatePlanLogTargets combined.services combined.logTargets
  checkCycles combined.services

/-- The token loop of `Service.ParseCommand` (part_002/part_005): `idx`
is the loop index, `inB`/`gotB` the `inBrackets`/`gotBrackets` flags,
`base`/`extra` the accumulated outputs. Tokenisation itself (`shlex`) is
an external library and the model starts from the token list. -/
def parseLoop : List String → Nat → Bool → Bool → List String → List String →
    Except String (List String × List String)
  | [], _, _, _, base, extra => .ok (base, extra)
  | arg :: rest, idx, inB, gotB, base, extra =>
    if inB then
      if arg = "[" then .error "cannot nest [ ... ] groups"
      else if arg = "]" then parseLoop rest (idx + 1) false gotB base extra
      else parseLoop rest (idx + 1) true gotB base (extra ++ [arg])
    else if gotB then .error "cannot have any arguments after [ ... ] group"
    else if arg = "[" then
      if idx = 0 then .error "cannot start command with [ ... ] group"
      else parseLoop rest (idx + 1) true true base extra
    else if arg = "]" then .error "cannot have ] outside of [ ... ] group"
    else parseLoop rest (idx + 1) false gotB (base ++ [arg]) extra

/-- `Service.ParseCommand` applied to the already-tokenised command. -/
def parseCommand (args : List String) : Except String (List String × List String) :=
  parseLoop args 0 false false [] []

/-- A token list with no bracket tokens. -/
def noBrackets (l : List String) : Prop := "[" ∉ l ∧ "]" ∉ l

instance (l : List String) : Decidable (noBrackets l) := by
  unfold noBrackets; infer_instance

/-- The backwards scan of `Service.LogsTo`, defined on the reversed
service list: the switch cases in source order. -/
def logsToRev (n : String) : List String → Bool
  | [] => false
  | entry :: rest =>
    if entry = n then true
    else if entry = "-" ++ n then false
    else if entry = "all" then true
    else if entry = "-all" then false
    else logsToRev n rest

/-- `Service.LogsTo`: iterate backwards through `t.Services` until an
entry matches. -/
def Service.logsTo (s : Service) (t : LogTarget) : Bool :=
  logsToRev s.name t.services.reverse

/-- A service with every field empty/unset, as produced by a YAML entry
that only names the service. -/
def zeroService : Service :=
  { name := "", summary := "", description := "", startup := "", override := .unknown
    command := "", after := [], before := [], requires := [], environment := []
    userID := none, user := "", groupID := none, group := "", workingDir := ""
    onSuccess := "", onFailure := "", onCheckFailure := []
    backoffDelay := ⟨0, false⟩, backoffFactor := ⟨0, false⟩, backoffLimit := ⟨0, false⟩
    killDelay := ⟨0, false⟩ }

/-- A check with every field empty/unset. -/
def zeroCheck : Check :=
  { name := "", override := .unknown, level := ""
    period := ⟨0, false⟩, timeout := ⟨0, false⟩, threshold := 0
    http := none, tcp := none, exec := none }

/-- Scenario S1, lower layer: service `web`, override `replace`,
command `/bin/srv`. -/
def s1LowerLayer : Layer :=
  { emptyLayer with
    order := 1
    label := "base"
    services := [("web", { zeroService with
      name := "web", override := .replace, command := "/bin/srv" })] }

/-- Scenario S1, upper layer: service `web`, override `merge`,
environment `LOG=info`. -/
def s1UpperLayer : Layer :=
  { emptyLayer with
    order := 2
    label := "tune"
    services := [("web", { zeroService with
      name := "web", override := .merge, environment := [("LOG", "info")] })] }

/-- A layer whose single check sets `timeout` equal to `period` (both
user-set), with a valid exec check. -/
def timeoutEqPeriodLayer : Layer :=
  { emptyLayer with
    label := "chk-layer"
    checks := [("chk", { zeroCheck with
      name := "chk", override := .replace, period := ⟨5, true⟩, timeout := ⟨5, true⟩,
      exec := some ⟨"echo x", "", [], none, "", none, "", ""⟩ })] }

/-- The combined plan produced from `timeoutEqPeriodLayer`. -/
def timeoutEqPeriodCombined : Layer :=
  (combineLayers [timeoutEqPeriodLayer]).toOption.getD emptyLayer

/-- The combined `chk` check of `timeoutEqPeriodCombined`. -/
def timeoutEqPeriodChk : Check :=
  (alookup timeoutEqPeriodCombined.checks "chk").getD zeroCheck

/-- A layer with one well-formed exec check leaving period, timeout and
threshold unset. -/
def plainCheckLayer : Layer :=
  { emptyLayer with
    label := "ok"
    checks := [("c", { zeroCheck with
      name := "c", override := .replace,
      exec := some ⟨"run", "", [], none, "", none, "", ""⟩ })] }

/-- The raw (pre-defaults) combination of `plainCheckLayer`. -/
def plainCheckRaw : Layer :=
  (combineLayersRaw [plainCheckLayer]).toOption.getD emptyLayer

/-- The combined plan produced from `plainCheckLayer`. -/
def plainCheckCombined : Layer :=
  (combineLayers [plainCheckLayer]).toOption.getD emptyLayer

/-- The check inside `plainCheckRaw`. -/
def plainCheckRawChk : Check :=
  (alookup plainCheckRaw.checks "c").getD zeroCheck

/-- Does an entry match for service name `n` (any of the four switch cases)? -/
def logMatches (n entry : String) : Prop :=
  entry = n ∨ entry = "-" ++ n ∨ entry = "all" ∨ entry = "-all"

instance (n entry : String) : Decidable (logMatches n entry) := by
  unfold logMatches; infer_instance

/-- The decision the switch takes for a matching entry, cases in source
order. -/
def logDecision (n entry : String) : Bool :=
  if entry = n then true
  else if entry = "-" ++ n then false
  else if entry = "all" then true
  else false

end PlanModel

namespace PlanParts

/-!
Embedding of `internals/plan/plan.go` (the part-based plan variant).
Parts are registry-provided interface values there, so a layer's part
content is an opaque type `α` and the part-combining and plan-validation
interface calls are parameters of the operations.
-/

/-- `plan.Layer` of the part-based plan: order, label and opaque
part content. -/
structure Layer (α : Type) where
  order : Int
  label : String
  content : α
deriving DecidableEq, Repr

/-- The error kinds `AppendLayer`/`UpdateLayer` can return. -/
inductive PlanError where
  | labelExists (label : String)
  | labelMissing (label : String)
  | combineFailed (msg : String)
  | validateFailed (msg : String)
deriving DecidableEq, Repr

/-- `plan.Plan` state: the layer list and the published combined layer
(`nil` before the first publish). -/
structure PlanSt (α : Type) where
  layers : List (Layer α)
  combined : Option (Layer α)
deriving DecidableEq, Repr

/-- `Plan.findLayer`: index and layer with the given label, or none. -/
def findLayer {α : Type} (layers : List (Layer α)) (label : String) :
    Option (Nat × Layer α) :=
  go layers 0
where
  go : List (Layer α) → Nat → Option (Nat × Layer α)
    | [], _ => none
    | layer :: rest, i =>
      if layer.label = label then some (i, layer) else go rest (i + 1)

/-- `Plan.AppendLayer`, with `combineL` standing for `Plan.combineLayers`
(a fold of the registered parts' `Combine`) and `validateL` for
`Plan.validate` (the parts' `ValidatePlan`). Mirrors the statement
order of the source: label check, combine, validate, publish, and only
then the order write-back into the supplied (shared) layer. Returns the
state and the result. -/
def appendLayer {α : Type} (combineL : List (Layer α) → Except String (Layer α))
    (validateL : Layer α → Except String Unit)
    (p : PlanSt α) (layer : Layer α) : PlanSt α × Except PlanError Int :=
  match findLayer p.layers layer.label with
  | some _ => (p, .error (.labelExists layer.label))
  | none =>
    let newOrder : Int :=
      match p.layers.getLast? with
      | some last => last.order + 1
      | none => 1
    match combineL (p.layers ++ [layer]) with
    | .error e => (p, .error (.combineFailed e))
    | .ok combined =>
      match validateL combined with
      | .error e => (p, .error (.validateFailed e))
      | .ok () =>
        ({ layers := p.layers ++ [{ layer with order := newOrder }]
           combined := some combined }, .ok newOrder)

/-- `Plan.UpdateLayer`: find the labelled layer, combine it with the
supplied layer (keeping the original order/label), recombine the whole
list, validate, and only then publish. -/
def updateLayer {α : Type} (combineL : List (Layer α) → Except String (Layer α))
    (validateL : Layer α → Except String Unit)
    (p : PlanSt α) (layer : Layer α) : PlanSt α × Except PlanError Int :=
  match findLayer p.layers layer.label with
  | none => (p, .error (.labelMissing layer.label))
  | some (i, found) =>
    match combineL [found, layer] with
    | .error e => (p, .error (.combineFailed e))
    | .ok updated0 =>
      let updated := { updated0 with order := found.order, label := found.label }
      let newLayers := p.layers.set i updated
      match combineL newLayers with
      | .error e => (p, .error (.combineFailed e))
      | .ok combined =>
        match validateL combined with
        | .error e => (p, .error (.validateFailed e))
        | .ok () => ({ layers := newLayers, combined := some combined }, .ok found.order)

end PlanParts

namespace Pairing

/-!
Embedding of `internals/overlord/pairingstate` (part_004 and
planextension.go). A controller configuration (`ControllerConfig`, a
controller-specific interface value, possibly nil) is `Option γ` for an
opaque `γ` with decidable equality standing for its `Equal` method.
-/

open PlanModel (Override)

/-- `pairingstate.DisableReason`. -/
inductive DisableReason where
  | internalError
  | pairingSuccess
  | pairingFailure
  | pairingReconfig
deriving DecidableEq, Repr

/-- `pairingstate.ManagerConfig` (mode is a Go string type). -/
structure ManagerConfig where
  mode : String
deriving DecidableEq, Repr

/-- `ManagerConfig.Equal`. -/
def ManagerConfig.equal (c other : ManagerConfig) : Bool := c.mode = other.mode

/-- `ManagerConfig.merge`. -/
def ManagerConfig.merge (c other : ManagerConfig) : ManagerConfig :=
  if other.mode ≠ "" then { c with mode := other.mode } else c

/-- `ManagerConfig.copy`. -/
def ManagerConfig.copy (c : ManagerConfig) : ManagerConfig := c

/-- `pairingstate.PairingConfig`: the parsed `pairing` plan section. -/
structure PairingConfig (γ : Type) where
  override : Override
  config : ManagerConfig
  ctrlType : String
  ctrlConfig : Option γ
deriving DecidableEq, Repr

/-- A live pairing controller as the manager sees it: its `Type()` and
its current `Config()`. -/
structure Ctrl (γ : Type) where
  ctype : String
  ccfg : γ
deriving DecidableEq, Repr

/-- `pairingstate.PairingManager`'s mutable fields. -/
structure Manager (γ : Type) where
  config : ManagerConfig
  controller : Option (Ctrl γ)
  isPaired : Bool
  windowOpen : Bool
deriving DecidableEq, Repr

/-- `PairingManager.configChanged` as written in the source (doc comment
there: "returns true if the pairing manager or pairing controller
configuration changed"). Called only with a non-nil controller, passed
here explicitly. -/
def configChanged {γ : Type} [DecidableEq γ] (m : Manager γ) (ctrl : Ctrl γ)
    (c : PairingConfig γ) : Bool :=
  if ¬ (m.config.equal c.config) then false
  else if ctrl.ctype ≠ c.ctrlType then false
  else if ¬ (c.ctrlConfig = some ctrl.ccfg) then false
  else true

/-- Observable controller interactions of `PlanChanged` (the
`PairingDisabled` call and the deferred `EnsureConfig` calls). -/
inductive PMEvent (γ : Type) where
  | pairingDisabled (reason : DisableReason)
  | ensureConfigNil (prevType : String)
  | ensureConfig (ctype : String) (cfg : Option γ)
deriving DecidableEq, Repr

/-- `PairingManager.PlanChanged`: close the window when
`configChanged` says so, update the manager config, replace the
controller on a type change, create a missing controller
(`newCtrl` models `controllerExtensions[type].NewController`), then run
the deferred shutdown/apply calls. Returns the new manager state and the
controller interactions in order. -/
def planChanged {γ : Type} [DecidableEq γ] (newCtrl : String → γ)
    (m : Manager γ) (newConfig : PairingConfig γ) :
    Manager γ × List (PMEvent γ) :=
  let closed :=
    match m.controller with
    | some ctrl =>
      if m.windowOpen ∧ configChanged m ctrl newConfig then
        ({ m with windowOpen := false }, [PMEvent.pairingDisabled .pairingReconfig])
      else (m, ([] : List (PMEvent γ)))
    | none => (m, [])
  let m1 := closed.1
  let m2 := if ¬ (m1.config.equal newConfig.config) then
      { m1 with config := newConfig.config } else m1
  let replaced :=
    match m2.controller with
    | some ctrl =>
      if ctrl.ctype ≠ newConfig.ctrlType then
        ({ m2 with controller := none }, some ctrl)
      else (m2, none)
    | none => (m2, none)
  let m3 := replaced.1
  let m4 := if m3.controller.isNone ∧ newConfig.ctrlType ≠ "" then
      { m3 with controller := some ⟨newConfig.ctrlType, newCtrl newConfig.ctrlType⟩ }
    else m3
  let shutdownEvents :=
    match replaced.2 with
    | some prev => [PMEvent.ensureConfigNil prev.ctype]
    | none => []
  let applyEvents :=
    match m4.controller with
    | some c => [PMEvent.ensureConfig c.ctype newConfig.ctrlConfig]
    | none => ([] : List (PMEvent γ))
  (m4, closed.2 ++ shutdownEvents ++ applyEvents)

/-- `combineManagerConfig` of planextension.go (the `other.Override`
switch; the combined section's own override is always empty). -/
def combineManagerConfig {γ : Type} (c : ManagerConfig) (other : PairingConfig γ) :
    Except String ManagerConfig :=
  match other.override with
  | .merge => .ok (c.merge other.config)
  | .replace => .ok other.config.copy
  | .unknown => .error "pairing must define an \"override\" policy"
  | .invalid _ => .error "pairing has an invalid \"override\" policy"

def combineManagerConfigs {γ : Type} :
    ManagerConfig → List (PairingConfig γ) → Except String ManagerConfig
  | c, [] => .ok c
  | c, s :: rest => do
    let c' ← combineManagerConfig c s
    combineManagerConfigs c' rest

/-- The `for i, section := range sections` loop of `checkControllers`:
`ct` is the accumulated `controllerType`, `ms` the `mergeStart` index. -/
def ccLoop {γ : Type} : List (PairingConfig γ) → Nat → String → Nat →
    Except String (String × Nat)
  | [], _, ct, ms => .ok (ct, ms)
  | s :: rest, i, ct, ms =>
    if ct ≠ "" ∧ s.ctrlType ≠ "" ∧ ct ≠ s.ctrlType then
      if s.override ≠ .replace then
        .error "cannot merge different controller configurations (only replace)"
      else ccLoop rest (i + 1) s.ctrlType i
    else ccLoop rest (i + 1) (if s.ctrlType ≠ "" then s.ctrlType else ct) ms

/-- `checkControllers`: the final controller type plus the controller
configurations of `sections[mergeStart:]` (the replaced ones excluded). -/
def checkControllers {γ : Type} (sections : List (PairingConfig γ)) :
    Except String (String × List (Option γ)) := do
  let (ct, ms) ← ccLoop sections 0 "" 0
  .ok (ct, (sections.drop ms).map (fun s => s.ctrlConfig))

/-- `SectionExtension.CombineSections`: combine manager configs, default
the mode to `disabled`, run `checkControllers`, and combine the surviving
controller configs through the registered controller extension
(`exts` models `controllerExtensions[..].CombineConfigs`). -/
def combineSections {γ : Type}
    (exts : String → Option (List (Option γ) → Except String (Option γ)))
    (sections : List (PairingConfig γ)) : Except String (PairingConfig γ) := do
  let cfg0 ← combineManagerConfigs ⟨""⟩ sections
  let cfg := if cfg0.mode = "" then ManagerConfig.mk "disabled" else cfg0
  let (ct, cfgs) ← checkControllers sections
  if ct ≠ "" then
    match exts ct with
    | none => .error ("cannot decode pairing controller configuration: unknown type \""
        ++ ct ++ "\"")
    | some combineConfigs => do
      let ccfg ← combineConfigs cfgs
      .ok { override := .unknown, config := cfg, ctrlType := ct, ctrlConfig := ccfg }
  else
    .ok { override := .unknown, config := cfg, ctrlType := "", ctrlConfig := none }

/-- A manager with an open window and a `power-on` controller applied
with manager mode `single` and controller config `7`. -/
def openWindowMgr : Manager Nat :=
  { config := ⟨"single"⟩, controller := some ⟨"power-on", 7⟩
    isPaired := false, windowOpen := true }

/-- A delivered pairing configuration identical to what `openWindowMgr`
has applied. -/
def identicalDelivered : PairingConfig Nat :=
  { override := .merge, config := ⟨"single"⟩, ctrlType := "power-on", ctrlConfig := some 7 }

/-- A delivered pairing configuration whose manager mode differs from
`openWindowMgr`'s. -/
def changedDelivered : PairingConfig Nat :=
  { identicalDelivered with config := ⟨"multiple"⟩ }

/-- Scenario S4, layer 1: controller type `power-on`. -/
def s4Lower : PairingConfig Nat :=
  { override := .merge, config := ⟨"single"⟩, ctrlType := "power-on", ctrlConfig := some 1 }

/-- Scenario S4, layer 2 with `override: merge`: controller type `remote`. -/
def s4UpperMerge : PairingConfig Nat :=
  { override := .merge, config := ⟨""⟩, ctrlType := "remote", ctrlConfig := some 2 }

/-- Scenario S4, layer 2 with `override: replace`. -/
def s4UpperReplace : PairingConfig Nat :=
  { s4UpperMerge with override := .replace }

/-- A controller extension registry knowing `power-on` and `remote`,
whose `CombineConfigs` keeps the last supplied (non-nil) config. -/
def s4Registry : String → Option (List (Option Nat) → Except String (Option Nat)) :=
  fun t =>
    if t = "power-on" ∨ t = "remote" then
      some (fun cfgs => .ok (cfgs.foldl (fun acc c => if c.isSome then c else acc) none))
    else none

end Pairing

namespace StateStore

/-!
Embedding of `internals/overlord/state/state.go`: `State.Unlock` with its
checkpoint retry loop, and the notice part of `State.Prune`. Time is in
seconds for the retry loop (`3 * k` seconds have elapsed before attempt
`k`, checkpoint attempts themselves taken as instantaneous) and abstract
`Nat` instants elsewhere.
-/

/-- The state backend as `Unlock` uses it: `NeedsCheckpoint` plus the
outcome of the `k`-th `Checkpoint(data)` attempt. -/
structure Backend where
  needsCheckpoint : Bool
  checkpoint : Nat → Bool

/-- The fields of `state.State` that `Unlock` reads and writes. -/
structure StateS where
  modified : Bool
  backend : Option Backend

/-- `unlockCheckpointRetryMaxTime` in seconds. -/
def retryMaxTime : Nat := 300

/-- `unlockCheckpointRetryInterval` in seconds. -/
def retryInterval : Nat := 3

/-- The retry loop of `Unlock`: attempt `k` runs while
`time.Since(start) <= maxTime`, i.e. while `3 * k ≤ 300`; returns the
first successful attempt, or none when the window is exhausted. `fuel`
only drives the recursion; any value above the window size is exact. -/
def retryLoop (cp : Nat → Bool) : Nat → Nat → Option Nat
  | _, 0 => none
  | k, fuel + 1 =>
    if retryInterval * k ≤ retryMaxTime then
      (if cp k then some k else retryLoop cp (k + 1) fuel)
    else none

/-- The retry loop entered at attempt 0 with sufficient fuel. -/
def retryFrom (cp : Nat → Bool) (k : Nat) : Option Nat :=
  retryLoop cp k (retryMaxTime + 2 - k)

/-- How an `Unlock` call ended. -/
inductive UnlockOutcome where
  | noCheckpoint
  | clearedWithoutCheckpoint
  | checkpointed (attempt : Nat)
  | panicked
deriving DecidableEq, Repr

/-- `State.Unlock` (the checkpoint part; the lock release itself is not
modelled): return early when unmodified or no backend; clear `modified`
without writing when the backend reports no checkpoint is needed;
otherwise serialise and run the retry loop, panicking on exhaustion. -/
def unlock (s : StateS) : StateS × UnlockOutcome :=
  if ¬ s.modified then (s, .noCheckpoint)
  else
    match s.backend with
    | none => (s, .noCheckpoint)
    | some b =>
      if ¬ b.needsCheckpoint then ({ s with modified := false }, .clearedWithoutCheckpoint)
      else
        match retryFrom b.checkpoint 0 with
        | some k => ({ s with modified := false }, .checkpointed k)
        | none => (s, .panicked)

/-- `state.Notice` as the prune code uses it. `expiry`/`expired` are
modelled from the spec ("optional expiry"; prune drops "expired
notices"): the notice source file is not under `src/`. -/
structure Notice where
  uid : Option Nat
  ntype : String
  key : String
  lastOccurred : Nat
  expiry : Option Nat
deriving DecidableEq, Repr

/-- Modelled from the spec: a notice is expired once its expiry time has
passed (`Notice.expired` lives in the absent notices source file). -/
def Notice.expired (n : Notice) (now : Nat) : Bool :=
  match n.expiry with
  | some t => t < now
  | none => false

/-- One notice survives the expiry/change-update pass of `State.Prune`:
expired notices are dropped, and a `change-update` notice whose
referenced change no longer exists is dropped. -/
def keepNotice (changes : List String) (now : Nat) (n : Notice) : Bool :=
  if n.expired now then false
  else if n.ntype = "change-update" ∧ n.key ∉ changes then false
  else true

/-- `State.pruneMaxNotices`: sort by `lastOccurred` and remove the
oldest `len - maxNotices` notices. -/
def pruneMaxNotices (maxNotices : Nat) (notices : List Notice) : List Notice :=
  (notices.mergeSort (fun a b => a.lastOccurred ≤ b.lastOccurred)).drop
    (notices.length - maxNotices)

/-- The notice part of `State.Prune`: the expiry/change-update filter,
then the `len(s.notices) > maxNotices` cap. -/
def pruneNotices (changes : List String) (now : Nat) (maxNotices : Nat)
    (notices : List Notice) : List Notice :=
  let kept := notices.filter (keepNotice changes now)
  if kept.length > maxNotices then pruneMaxNotices maxNotices kept else kept

end StateStore

/-!
Theorems
-/

/-- Splitting a successful monadic bind on `Except`. -/
theorem except_bind_ok {ε α β : Type} {a : Except ε α} {f : α → Except ε β} {b : β}
    (h : (a >>= f) = .ok b) : ∃ y, a = .ok y ∧ f y = .ok b := by
  cases a with
  | ok y => exact ⟨y, rfl, h⟩
  | error e => exact absurd h (by simp [Bind.bind, Except.bind])

namespace PlanModel

/-- A successful `validatePlanChecks` run validated every entry. -/
theorem validatePlanChecks_ok {services : List (String × Service)} :
    ∀ {checks : List (String × Check)},
      validatePlanChecks services checks = .ok () →
      ∀ nc ∈ checks, validatePlanCheck services nc.1 nc.2 = .ok () := by
  intro checks
  induction checks with
  | nil => intro _ nc hnc; simp at hnc
  | cons head tail ih =>
    obtain ⟨name, c⟩ := head
    intro h nc hnc
    have h' : (do validatePlanCheck services name c
                  validatePlanChecks services tail) = .ok () := h
    obtain ⟨y, hy, htail⟩ := except_bind_ok h'
    rw [List.mem_cons] at hnc
    rcases hnc with rfl | hnc
    · cases y; exact hy
    · exact ih htail nc hnc

/-- A check accepted by `validatePlanCheck` has exactly one of the three
probe types set. -/
theorem validatePlanCheck_exactlyOne {services : List (String × Service)}
    {name : String} {c : Check}
    (h : validatePlanCheck services name c = .ok ()) :
    (if c.http.isSome then 1 else 0) + (if c.tcp.isSome then 1 else 0) +
      (if c.exec.isSome then 1 else 0) = 1 := by
  unfold validatePlanCheck at h
  obtain ⟨n1, h1, h⟩ := except_bind_ok h
  obtain ⟨n2, h2, h⟩ := except_bind_ok h
  obtain ⟨n3, h3, h⟩ := except_bind_ok h
  have hsum : n1 + n2 + n3 = 1 := by
    by_contra hne
    rw [if_pos hne] at h
    cases h
  have e1 : (if c.http.isSome then 1 else 0) = n1 := by
    (repeat' split at h1) <;> simp_all
  have e2 : (if c.tcp.isSome then 1 else 0) = n2 := by
    (repeat' split at h2) <;> simp_all
  have e3 : (if c.exec.isSome then 1 else 0) = n3 := by
    (repeat' split at h3) <;> simp_all
  rw [e1, e2, e3]; exact hsum

end PlanModel

namespace PlanModel

/-- After the defaults pass, a check's timeout never exceeds its period. -/
theorem applyCheckDefaults_timeout_le (c : Check) :
    (applyCheckDefaults c).timeout.value ≤ (applyCheckDefaults c).period.value := by
  simp only [applyCheckDefaults]
  split_ifs <;> simp_all

/-- The defaults pass turns a zero threshold into 3. -/
theorem applyCheckDefaults_threshold {c : Check} (h : c.threshold = 0) :
    (applyCheckDefaults c).threshold = 3 := by
  simp [applyCheckDefaults, h, defaultCheckThreshold]

/-- C1: combining layers in ascending order treats every section entry
— service, check and log target alike — by its override: `merge` with an
existing entry of the same name merges the later entry's set fields into
a copy of the existing one; `replace`, or `merge` without an existing
entry, stores a copy of the later entry; an empty override fails the
combine with a `FormatError` naming the layer and the entry. On
scenario S1 (lower layer: `web` replace with command `/bin/srv`; upper
layer: `web` merge with environment `LOG=info`), the combined `web` has
command `/bin/srv` and environment `LOG=info`. -/
theorem combineLayers_override_semantics :
    (∀ (label name : String) (acc : List (String × Service)) (svc old : Service),
       svc.override = .merge → alookup acc name = some old →
       combineServiceEntry label acc name svc =
         .ok (aupsert acc name (old.copy.merge svc))) ∧
    (∀ (label name : String) (acc : List (String × Service)) (svc : Service),
       svc.override = .merge → alookup acc name = none →
       combineServiceEntry label acc name svc = .ok (aupsert acc name svc.copy)) ∧
    (∀ (label name : String) (acc : List (String × Service)) (svc : Service),
       svc.override = .replace →
       combineServiceEntry label acc name svc = .ok (aupsert acc name svc.copy)) ∧
    (∀ (label name : String) (acc : List (String × Service)) (svc : Service),
       svc.override = .unknown →
       combineServiceEntry label acc name svc =
         .error ⟨"layer \"" ++ label ++ "\" must define \"override\" for service \""
           ++ svc.name ++ "\""⟩) ∧
    (∀ (label name : String) (acc : List (String × Check)) (chk old : Check),
       chk.override = .merge → alookup acc name = some old →
       combineCheckEntry label acc name chk =
         .ok (aupsert acc name (old.copy.merge chk))) ∧
    (∀ (label name : String) (acc : List (String × Check)) (chk : Check),
       chk.override = .merge → alookup acc name = none →
       combineCheckEntry label acc name chk = .ok (aupsert acc name chk.copy)) ∧
    (∀ (label name : String) (acc : List (String × Check)) (chk : Check),
       chk.override = .replace →
       combineCheckEntry label acc name chk = .ok (aupsert acc name chk.copy)) ∧
    (∀ (label name : String) (acc : List (String × Check)) (chk : Check),
       chk.override = .unknown →
       combineCheckEntry label acc name chk =
         .error ⟨"layer \"" ++ label ++ "\" must define \"override\" for check \""
           ++ chk.name ++ "\""⟩) ∧
    (∀ (label name : String) (acc : List (String × LogTarget)) (tgt old : LogTarget),
       tgt.override = .merge → alookup acc name = some old →
       combineLogTargetEntry label acc name tgt =
         .ok (aupsert acc name (old.copy.merge tgt))) ∧
    (∀ (label name : String) (acc : List (String × LogTarget)) (tgt : LogTarget),
       tgt.override = .merge → alookup acc name = none →
       combineLogTargetEntry label acc name tgt = .ok (aupsert acc name tgt.copy)) ∧
    (∀ (label name : String) (acc : List (String × LogTarget)) (tgt : LogTarget),
       tgt.override = .replace →
       combineLogTargetEntry label acc name tgt = .ok (aupsert acc name tgt.copy)) ∧
    (∀ (label name : String) (acc : List (String × LogTarget)) (tgt : LogTarget),
       tgt.override = .unknown →
       combineLogTargetEntry label acc name tgt =
         .error ⟨"layer \"" ++ label ++ "\" must define \"override\" for log target \""
           ++ tgt.name ++ "\""⟩) ∧
    (((combineLayers [s1LowerLayer, s1UpperLayer]).toOption.bind
        (fun l => alookup l.services "web")).map
        (fun w => (w.command, alookup w.environment "LOG"))
      = some ("/bin/srv", some "info")) := by
  refine ⟨?_, ?_, ?_, ?_, ?_, ?_, ?_, ?_, ?_, ?_, ?_, ?_, ?_⟩
  · intro label name acc svc old hov hlk
    simp [combineServiceEntry, hov, hlk]
  · intro label name acc svc hov hlk
    simp [combineServiceEntry, hov, hlk]
  · intro label name acc svc hov
    simp [combineServiceEntry, hov]
  · intro label name acc svc hov
    simp [combineServiceEntry, hov]
  · intro label name acc chk old hov hlk
    simp [combineCheckEntry, hov, hlk]
  · intro label name acc chk hov hlk
    simp [combineCheckEntry, hov, hlk]
  · intro label name acc chk hov
    simp [combineCheckEntry, hov]
  · intro label name acc chk hov
    simp [combineCheckEntry, hov]
  · intro label name acc tgt old hov hlk
    simp [combineLogTargetEntry, hov, hlk]
  · intro label name acc tgt hov hlk
    simp [combineLogTargetEntry, hov, hlk]
  · intro label name acc tgt hov
    simp [combineLogTargetEntry, hov]
  · intro label name acc tgt hov
    simp [combineLogTargetEntry, hov]
  · decide

/-- C1 witness: the override semantics applied at concrete service,
check and log-target inputs. -/
theorem combineLayers_override_semantics_witness :
    combineServiceEntry "tune" [("web", { zeroService with name := "web", command := "/bin/srv" })]
        "web" { zeroService with name := "web", override := .merge }
      = .ok (aupsert [("web", { zeroService with name := "web", command := "/bin/srv" })] "web"
          (({ zeroService with name := "web", command := "/bin/srv" } : Service).copy.merge
            { zeroService with name := "web", override := .merge })) ∧
    combineServiceEntry "base" [] "web" { zeroService with name := "web" }
      = .error ⟨"layer \"base\" must define \"override\" for service \"web\""⟩ ∧
    combineCheckEntry "tune" [("chk", { zeroCheck with name := "chk", threshold := 5 })]
        "chk" { zeroCheck with name := "chk", override := .merge, threshold := 7 }
      = .ok (aupsert [("chk", { zeroCheck with name := "chk", threshold := 5 })] "chk"
          (({ zeroCheck with name := "chk", threshold := 5 } : Check).copy.merge
            { zeroCheck with name := "chk", override := .merge, threshold := 7 })) ∧
    combineCheckEntry "base" [] "chk" { zeroCheck with name := "chk" }
      = .error ⟨"layer \"base\" must define \"override\" for check \"chk\""⟩ ∧
    combineLogTargetEntry "tune" [] "t" ⟨"t", "loki", "l", [], .replace, []⟩
      = .ok (aupsert [] "t"
          (LogTarget.copy ⟨"t", "loki", "l", [], .replace, []⟩)) ∧
    combineLogTargetEntry "base" [] "t" ⟨"t", "", "", [], .unknown, []⟩
      = .error ⟨"layer \"base\" must define \"override\" for log target \"t\""⟩ := by
  obtain ⟨s1, -, -, s4, c1, -, -, c4, -, -, t3, t4, -⟩ := combineLayers_override_semantics
  refine ⟨s1 "tune" "web" _ _ _ rfl rfl, s4 "base" "web" [] { zeroService with name := "web" } rfl,
    c1 "tune" "chk" _ _ _ rfl rfl, c4 "base" "chk" [] { zeroCheck with name := "chk" } rfl,
    t3 "tune" "t" [] _ rfl, t4 "base" "t" [] _ rfl⟩

end PlanModel

namespace PlanModel

/-- C3 counterexample: a combined plan accepted by `validate` in which a
check's timeout equals its period, so the timeout is not strictly less
than the period. -/
theorem validate_accepts_timeout_eq_period :
    combineLayers [timeoutEqPeriodLayer] = .ok timeoutEqPeriodCombined ∧
    validate timeoutEqPeriodCombined = .ok () ∧
    alookup timeoutEqPeriodCombined.checks "chk" = some timeoutEqPeriodChk ∧
    timeoutEqPeriodChk.timeout.value = timeoutEqPeriodChk.period.value ∧
    ¬ (timeoutEqPeriodChk.timeout.value < timeoutEqPeriodChk.period.value) := by
  decide

/-- C3 (amended): in a combined plan produced by `combineLayers` and
accepted by `validate`, every check has exactly one of `http`, `tcp`,
`exec`, its timeout is at most (not strictly less than) its period, and
every check whose pre-defaults threshold was zero has threshold 3. -/
theorem combined_plan_check_invariants :
    ∀ (layers : List Layer) (raw combined : Layer),
      combineLayersRaw layers = .ok raw →
      combineLayers layers = .ok combined →
      validate combined = .ok () →
      combined.checks = raw.checks.map (fun nv => (nv.1, applyCheckDefaults nv.2)) ∧
      ∀ nc ∈ raw.checks,
        ((if (applyCheckDefaults nc.2).http.isSome then 1 else 0) +
           (if (applyCheckDefaults nc.2).tcp.isSome then 1 else 0) +
           (if (applyCheckDefaults nc.2).exec.isSome then 1 else 0) = 1) ∧
        (applyCheckDefaults nc.2).timeout.value ≤ (applyCheckDefaults nc.2).period.value ∧
        (nc.2.threshold = 0 → (applyCheckDefaults nc.2).threshold = 3) := by
  intro layers raw combined hraw hcomb hval
  unfold combineLayers at hcomb
  rw [hraw] at hcomb
  simp only [Bind.bind, Except.bind] at hcomb
  have hc := Except.ok.inj hcomb
  have hchecksEq : combined.checks = raw.checks.map (fun nv => (nv.1, applyCheckDefaults nv.2)) := by
    rw [← hc]
  refine ⟨hchecksEq, ?_⟩
  unfold validate at hval
  obtain ⟨u1, hsvc, hval⟩ := except_bind_ok hval
  obtain ⟨u2, hchecks, hval⟩ := except_bind_ok hval
  cases u2
  intro nc hnc
  have hmem : (nc.1, applyCheckDefaults nc.2) ∈ combined.checks := by
    rw [hchecksEq]
    exact List.mem_map_of_mem _ hnc
  have hok := validatePlanChecks_ok hchecks _ hmem
  exact ⟨validatePlanCheck_exactlyOne hok, applyCheckDefaults_timeout_le _,
    fun hz => applyCheckDefaults_threshold hz⟩

/-- C3 witness: the invariants instantiated on a one-layer plan with a
plain exec check. -/
theorem combined_plan_check_invariants_witness :
    plainCheckCombined.checks =
      plainCheckRaw.checks.map (fun nv => (nv.1, applyCheckDefaults nv.2)) ∧
    (applyCheckDefaults plainCheckRawChk).timeout.value ≤
      (applyCheckDefaults plainCheckRawChk).period.value := by
  have h := combined_plan_check_invariants [plainCheckLayer] plainCheckRaw plainCheckCombined
    (by decide) (by decide) (by decide)
  exact ⟨h.1, (h.2 ("c", plainCheckRawChk) (by decide)).2.1⟩

end PlanModel

namespace PlanParts

/-- C2: for any part-combine and plan-validate behaviour, `AppendLayer`
and `UpdateLayer` leave the plan's layer list and combined layer exactly
as they were whenever they return an error (label conflict, combine
error, or validation error), and publish a newly combined and validated
plan exactly when they return success. -/
theorem append_update_layer_atomic :
    ∀ {α : Type} (combineL : List (Layer α) → Except String (Layer α))
      (validateL : Layer α → Except String Unit) (p : PlanSt α) (l : Layer α),
      (∀ e, (appendLayer combineL validateL p l).2 = .error e →
        (appendLayer combineL validateL p l).1 = p) ∧
      (∀ e, (updateLayer combineL validateL p l).2 = .error e →
        (updateLayer combineL validateL p l).1 = p) ∧
      (∀ o, (appendLayer combineL validateL p l).2 = .ok o →
        ∃ c, combineL (p.layers ++ [l]) = .ok c ∧ validateL c = .ok () ∧
          (appendLayer combineL validateL p l).1.combined = some c) ∧
      (∀ o, (updateLayer combineL validateL p l).2 = .ok o →
        ∃ c, validateL c = .ok () ∧
          (updateLayer combineL validateL p l).1.combined = some c) := by
  intro α combineL validateL p l
  refine ⟨?_, ?_, ?_, ?_⟩
  · intro e
    unfold appendLayer
    rcases hf : findLayer p.layers l.label with _ | pr
    · rcases hc : combineL (p.layers ++ [l]) with ec | c
      · simp [hf, hc]
      · rcases hv : validateL c with ev | u
        · simp [hf, hc, hv]
        · cases u; simp [hf, hc, hv]
    · simp [hf]
  · intro e
    unfold updateLayer
    rcases hf : findLayer p.layers l.label with _ | pr
    · simp [hf]
    · obtain ⟨i, found⟩ := pr
      rcases hc1 : combineL [found, l] with ec | u0
      · simp [hf, hc1]
      · rcases hc2 : combineL (p.layers.set i { u0 with order := found.order, label := found.label })
            with ec | c
        · simp [hf, hc1, hc2]
        · rcases hv : validateL c with ev | u
          · simp [hf, hc1, hc2, hv]
          · cases u; simp [hf, hc1, hc2, hv]
  · intro o
    unfold appendLayer
    rcases hf : findLayer p.layers l.label with _ | pr
    · rcases hc : combineL (p.layers ++ [l]) with ec | c
      · simp [hf, hc]
      · rcases hv : validateL c with ev | u
        · simp [hf, hc, hv]
        · cases u
          intro _
          exact ⟨c, rfl, hv, by simp [hf, hc, hv]⟩
    · simp [hf]
  · intro o
    unfold updateLayer
    rcases hf : findLayer p.layers l.label with _ | pr
    · simp [hf]
    · obtain ⟨i, found⟩ := pr
      rcases hc1 : combineL [found, l] with ec | u0
      · simp [hf, hc1]
      · rcases hc2 : combineL (p.layers.set i { u0 with order := found.order, label := found.label })
            with ec | c
        · simp [hf, hc1, hc2]
        · rcases hv : validateL c with ev | u
          · simp [hf, hc1, hc2, hv]
          · cases u
            intro _
            exact ⟨c, hv, by simp [hf, hc1, hc2, hv]⟩

/-- C2 witness: a concrete plan whose validation always fails stays
untouched by `AppendLayer`, and one whose combine/validate succeed
publishes the combined layer. -/
theorem append_update_layer_atomic_witness :
    (appendLayer (fun ls => .ok (Layer.mk 0 "combined" (ls.length)))
        (fun _ => .error "invalid") (PlanSt.mk [] none) (Layer.mk 7 "a" 0)).1
      = PlanSt.mk [] none ∧
    (appendLayer (fun ls => .ok (Layer.mk 0 "combined" (ls.length)))
        (fun _ => .ok ()) (PlanSt.mk [] none) (Layer.mk 7 "a" 0)).1.combined
      = some (Layer.mk 0 "combined" 1) := by
  constructor
  · exact (append_update_layer_atomic (fun ls => .ok (Layer.mk 0 "combined" (ls.length)))
      (fun _ => .error "invalid") (PlanSt.mk [] none) (Layer.mk 7 "a" 0)).1
      (.validateFailed "invalid") (by decide)
  · obtain ⟨c, hcomb, _, hpub⟩ :=
      (append_update_layer_atomic (fun ls => .ok (Layer.mk 0 "combined" (ls.length)))
        (fun _ => .ok ()) (PlanSt.mk [] none) (Layer.mk 7 "a" 0)).2.2.1 1 (by decide)
    rw [hpub, ← Except.ok.inj hcomb]
    decide

end PlanParts

namespace Pairing

/-- C4: the code closes the pairing window on an *identical* delivered
configuration and leaves it open on a *changed* one — the opposite of
the claim and of `configChanged`'s own doc comment: `configChanged`
returns `true` exactly when manager mode, controller type and controller
configuration are all unchanged. -/
theorem planChanged_closes_window_on_identical_config :
    configChanged openWindowMgr ⟨"power-on", 7⟩ identicalDelivered = true ∧
    configChanged openWindowMgr ⟨"power-on", 7⟩ changedDelivered = false ∧
    (planChanged (fun _ => 0) openWindowMgr identicalDelivered).1.windowOpen = false ∧
    PMEvent.pairingDisabled DisableReason.pairingReconfig ∈
      (planChanged (fun _ => 0) openWindowMgr identicalDelivered).2 ∧
    (planChanged (fun _ => 0) openWindowMgr changedDelivered).1.windowOpen = true ∧
    PMEvent.pairingDisabled DisableReason.pairingReconfig ∉
      (planChanged (fun _ => 0) openWindowMgr changedDelivered).2 := by
  decide

/-- Running `ccLoop` over a list prefix that succeeds continues into the
suffix with the accumulated state. -/
theorem ccLoop_append {γ : Type} :
    ∀ (pre : List (PairingConfig γ)) (ys : List (PairingConfig γ))
      (i : Nat) (ct : String) (ms : Nat) (ct' : String) (ms' : Nat),
      ccLoop pre i ct ms = .ok (ct', ms') →
      ccLoop (pre ++ ys) i ct ms = ccLoop ys (i + pre.length) ct' ms' := by
  intro pre
  induction pre with
  | nil =>
    intro ys i ct ms ct' ms' h
    obtain ⟨h1, h2⟩ := Prod.mk.injEq .. ▸ Except.ok.inj h
    subst h1; subst h2
    simp
  | cons s rest ih =>
    intro ys i ct ms ct' ms' h
    rw [List.cons_append]
    rw [ccLoop] at h ⊢
    by_cases h1 : ct ≠ "" ∧ s.ctrlType ≠ "" ∧ ct ≠ s.ctrlType
    · rw [if_pos h1] at h ⊢
      by_cases h2 : s.override ≠ PlanModel.Override.replace
      · rw [if_pos h2] at h; cases h
      · rw [if_neg h2] at h ⊢
        have harith : i + (s :: rest).length = (i + 1) + rest.length := by
          simp [List.length_cons]; omega
        rw [harith]
        exact ih ys (i + 1) s.ctrlType i ct' ms' h
    · rw [if_neg h1] at h ⊢
      have harith : i + (s :: rest).length = (i + 1) + rest.length := by
        simp [List.length_cons]; omega
      rw [harith]
      exact ih ys (i + 1) _ ms ct' ms' h

/-- C5: when a later pairing section carries a non-empty controller type
different from the type accumulated over the earlier sections, the
controller combine fails unless that section's override is `replace`;
with `replace` it succeeds with the new type, and only that section's
controller config survives (the replaced ones are excluded). The whole
section combine fails whenever `checkControllers` fails. Scenario S4
(power-on then remote) is included concretely. -/
theorem checkControllers_type_change_requires_replace :
    (∀ (γ : Type) (pre : List (PairingConfig γ)) (s : PairingConfig γ)
       (ct : String) (ms : Nat),
       ccLoop pre 0 "" 0 = .ok (ct, ms) →
       ct ≠ "" → s.ctrlType ≠ "" → s.ctrlType ≠ ct →
       (s.override ≠ PlanModel.Override.replace →
         checkControllers (pre ++ [s]) =
           .error "cannot merge different controller configurations (only replace)") ∧
       (s.override = PlanModel.Override.replace →
         checkControllers (pre ++ [s]) = .ok (s.ctrlType, [s.ctrlConfig]))) ∧
    (∀ (γ : Type) (exts : String → Option (List (Option γ) → Except String (Option γ)))
       (sections : List (PairingConfig γ)) (msg : String),
       checkControllers sections = .error msg →
       (combineSections exts sections).isOk = false) ∧
    checkControllers [s4Lower, s4UpperMerge]
      = .error "cannot merge different controller configurations (only replace)" ∧
    (combineSections s4Registry [s4Lower, s4UpperMerge]).isOk = false ∧
    checkControllers [s4Lower, s4UpperReplace] = .ok ("remote", [some 2]) ∧
    (combineSections s4Registry [s4Lower, s4UpperReplace]).toOption.map
      (fun c => c.ctrlType) = some "remote" := by
  refine ⟨?_, ?_, by decide, by decide, by decide, by decide⟩
  · intro γ pre s ct ms hpre hct hst hne
    have hstep := ccLoop_append pre [s] 0 "" 0 ct ms hpre
    constructor
    · intro hov
      unfold checkControllers
      rw [hstep]
      rw [ccLoop]
      rw [if_pos ⟨hct, hst, fun he => hne he.symm⟩, if_pos hov]
      rfl
    · intro hov
      unfold checkControllers
      rw [hstep]
      rw [ccLoop]
      rw [if_pos ⟨hct, hst, fun he => hne he.symm⟩, if_neg (by simp [hov])]
      rw [ccLoop]
      have hdrop : (List.map (fun s => s.ctrlConfig) pre ++ [s.ctrlConfig]).drop pre.length
          = [s.ctrlConfig] := List.drop_left' (by simp)
      simp [Bind.bind, Except.bind, hdrop]
  · intro γ exts sections msg h
    unfold combineSections
    rcases hm : combineManagerConfigs (⟨""⟩ : ManagerConfig) sections with em | cm
    · simp only [Bind.bind, Except.bind, hm]
      rfl
    · simp only [Bind.bind, Except.bind, hm, h]
      rfl

/-- C5 witness: the rule applied to scenario S4 with `override: replace`
on the upper layer. -/
theorem checkControllers_type_change_requires_replace_witness :
    checkControllers [s4Lower, s4UpperReplace] = .ok ("remote", [some 2]) := by
  have h := (checkControllers_type_change_requires_replace.1 Nat [s4Lower] s4UpperReplace
    "power-on" 0 (by decide) (by decide) (by decide) (by decide)).2 rfl
  simpa using h

end Pairing

namespace StateStore

/-- A successful retry returns the first attempt inside the window whose
checkpoint succeeded. -/
theorem retryLoop_ok {cp : Nat → Bool} :
    ∀ (fuel k j : Nat), retryLoop cp k fuel = some j →
      k ≤ j ∧ retryInterval * j ≤ retryMaxTime ∧ cp j = true ∧
        ∀ i, k ≤ i → i < j → cp i = false := by
  intro fuel
  induction fuel with
  | zero => intro k j h; cases h
  | succ n ih =>
    intro k j h
    rw [retryLoop] at h
    by_cases hg : retryInterval * k ≤ retryMaxTime
    · rw [if_pos hg] at h
      by_cases hcp : cp k = true
      · rw [if_pos hcp] at h
        have hk := Option.some.inj h
        subst hk
        exact ⟨Nat.le_refl _, hg, hcp, fun i hik hij => absurd (Nat.lt_of_le_of_lt hik hij)
          (Nat.lt_irrefl _)⟩
      · rw [if_neg hcp] at h
        obtain ⟨h1, h2, h3, h4⟩ := ih (k + 1) j h
        refine ⟨by omega, h2, h3, ?_⟩
        intro i hki hij
        rcases Nat.eq_or_lt_of_le hki with rfl | hlt
        · exact Bool.not_eq_true _ ▸ eq_false_of_ne_true hcp
        · exact h4 i hlt hij
    · rw [if_neg hg] at h; cases h

/-- When every attempt in the window fails, the retry loop exhausts. -/
theorem retryLoop_none {cp : Nat → Bool} :
    ∀ (fuel k : Nat), (∀ j, k ≤ j → retryInterval * j ≤ retryMaxTime → cp j = false) →
      retryLoop cp k fuel = none := by
  intro fuel
  induction fuel with
  | zero => intro k _; rfl
  | succ n ih =>
    intro k hall
    rw [retryLoop]
    by_cases hg : retryInterval * k ≤ retryMaxTime
    · rw [if_pos hg, hall k (Nat.le_refl _) hg]
      simp only [Bool.false_eq_true, if_false]
      exact ih (k + 1) (fun j hj => hall j (by omega))
    · rw [if_neg hg]

/-- Conversely, with enough fuel an exhausted retry loop means every
attempt in the window failed. -/
theorem retryLoop_none_rev {cp : Nat → Bool} :
    ∀ (fuel k : Nat), retryMaxTime + 2 - k ≤ fuel → retryLoop cp k fuel = none →
      ∀ j, k ≤ j → retryInterval * j ≤ retryMaxTime → cp j = false := by
  intro fuel
  induction fuel with
  | zero =>
    intro k hfuel _ j hkj hj
    simp only [retryMaxTime, retryInterval] at hfuel hj
    omega
  | succ n ih =>
    intro k hfuel h j hkj hj
    rw [retryLoop] at h
    by_cases hg : retryInterval * k ≤ retryMaxTime
    · rw [if_pos hg] at h
      by_cases hcp : cp k = true
      · rw [if_pos hcp] at h; cases h
      · rw [if_neg hcp] at h
        rcases Nat.eq_or_lt_of_le hkj with rfl | hlt
        · exact Bool.not_eq_true _ ▸ eq_false_of_ne_true hcp
        · exact ih (k + 1) (by omega) h j hlt hj
    · simp only [retryMaxTime, retryInterval] at hg hj
      omega

/-- C6: `Unlock` runs the checkpoint path exactly when the state is
modified and a backend is present reporting a checkpoint is needed; the
attempts are spaced `retryInterval` (3 s) apart inside the
`retryMaxTime` (5 min) window, the recorded attempt is the first
success, and the loop panics precisely when every attempt in the window
fails. A successful checkpoint clears the modified flag. -/
theorem unlock_checkpoint_policy :
    (∀ s : StateS, ((unlock s).2 = .panicked ∨ ∃ k, (unlock s).2 = .checkpointed k) ↔
       (s.modified = true ∧ ∃ b, s.backend = some b ∧ b.needsCheckpoint = true)) ∧
    (∀ (s : StateS) (b : Backend) (k : Nat), s.backend = some b →
       (unlock s).2 = .checkpointed k →
       retryInterval * k ≤ retryMaxTime ∧ b.checkpoint k = true ∧
         ∀ j, j < k → b.checkpoint j = false) ∧
    (∀ (s : StateS) (b : Backend), s.modified = true → s.backend = some b →
       b.needsCheckpoint = true →
       ((unlock s).2 = .panicked ↔
         ∀ k, retryInterval * k ≤ retryMaxTime → b.checkpoint k = false)) ∧
    (∀ (s : StateS) (k : Nat), (unlock s).2 = .checkpointed k →
       (unlock s).1.modified = false) := by
  refine ⟨?_, ?_, ?_, ?_⟩
  · intro s
    unfold unlock
    by_cases hm : s.modified = true
    · rcases hb : s.backend with _ | b
      · simp [hm, hb]
      · by_cases hn : b.needsCheckpoint = true
        · rcases hr : retryFrom b.checkpoint 0 with _ | k <;>
            simp [hm, hb, hn, hr]
        · simp [hm, hb, hn]
    · simp [hm]
  · intro s b k hb hk
    unfold unlock at hk
    rw [hb] at hk
    by_cases hm : s.modified = true
    · by_cases hn : b.needsCheckpoint = true
      · rcases hr : retryFrom b.checkpoint 0 with _ | k2
        · simp [hm, hn, hr] at hk
        · simp only [hm, hn, hr, Bool.not_true, if_false] at hk
          have hkk : k2 = k := by simpa using hk
          subst hkk
          obtain ⟨_, h2, h3, h4⟩ := retryLoop_ok _ 0 k2 hr
          exact ⟨h2, h3, fun j hj => h4 j (Nat.zero_le _) hj⟩
      · simp [hm, hn] at hk
    · simp [hm] at hk
  · intro s b hm hb hn
    unfold unlock
    rw [hb]
    constructor
    · intro hp
      rcases hr : retryFrom b.checkpoint 0 with _ | k2
      · exact fun k hk => retryLoop_none_rev _ 0 (by omega) hr k (Nat.zero_le _) hk
      · simp [hm, hn, hr] at hp
    · intro hall
      have hnone : retryFrom b.checkpoint 0 = none :=
        retryLoop_none _ 0 (fun j _ => hall j)
      simp [hm, hn, hnone]
  · intro s k hk
    unfold unlock at hk ⊢
    by_cases hm : s.modified = true
    · rcases hb : s.backend with _ | b
      · simp [hm, hb] at hk
      · by_cases hn : b.needsCheckpoint = true
        · rcases hr : retryFrom b.checkpoint 0 with _ | k2 <;>
            simp [hm, hb, hn, hr] at hk ⊢
        · simp [hm, hb, hn] at hk
    · simp [hm] at hk

/-- C6 witness: the retry facts at a backend whose third attempt
succeeds. -/
theorem unlock_checkpoint_policy_witness :
    retryInterval * 2 ≤ retryMaxTime ∧
    (Backend.mk true (fun k => decide (k = 2))).checkpoint 2 = true := by
  have h := unlock_checkpoint_policy.2.1
    (StateS.mk true (some (Backend.mk true (fun k => decide (k = 2)))))
    (Backend.mk true (fun k => decide (k = 2))) 2 rfl (by rfl)
  exact ⟨h.1, h.2.1⟩

/-- C10: when the state is modified but the backend reports no
checkpoint is needed, `Unlock` clears the modified flag without entering
the checkpoint path, and a subsequent `Unlock` of the resulting state
performs no checkpoint at all. -/
theorem unlock_clears_modified_without_checkpoint :
    ∀ (s : StateS) (b : Backend), s.modified = true → s.backend = some b →
      b.needsCheckpoint = false →
      (unlock s).1 = { s with modified := false } ∧
      (unlock s).2 = .clearedWithoutCheckpoint ∧
      unlock ((unlock s).1) = ((unlock s).1, .noCheckpoint) := by
  intro s b hm hb hn
  unfold unlock
  rw [hb]
  simp [hm, hn]

/-- C10 witness: the skip behaviour on a concrete modified state with a
backend not requesting a checkpoint. -/
theorem unlock_clears_modified_without_checkpoint_witness :
    (unlock (StateS.mk true (some (Backend.mk false (fun _ => true))))).1.modified = false ∧
    (unlock (StateS.mk true (some (Backend.mk false (fun _ => true))))).2
      = .clearedWithoutCheckpoint ∧
    (unlock ((unlock (StateS.mk true (some (Backend.mk false (fun _ => true))))).1)).2
      = .noCheckpoint := by
  have h := unlock_clears_modified_without_checkpoint
    (StateS.mk true (some (Backend.mk false (fun _ => true))))
    (Backend.mk false (fun _ => true)) rfl rfl rfl
  refine ⟨?_, h.2.1, ?_⟩
  · rw [h.1]
  · rw [h.2.2]

end StateStore

namespace StateStore

/-- `keepNotice` in predicate form. -/
theorem keepNotice_eq_true {changes : List String} {now : Nat} {n : Notice} :
    keepNotice changes now n = true ↔
      n.expired now = false ∧ (n.ntype = "change-update" → n.key ∈ changes) := by
  unfold keepNotice
  split_ifs with h1 h2 <;> simp_all

/-- C8: the prune pass drops exactly the expired notices and the
`change-update` notices whose change is gone; then, only when more than
`maxNotices` notices remain, it drops the oldest ones by `lastOccurred`
until exactly `maxNotices` remain (every dropped notice is no newer than
every kept one). -/
theorem prune_notices_policy :
    (∀ (changes : List String) (now : Nat) (notices : List Notice) (n : Notice),
       n ∈ notices.filter (keepNotice changes now) ↔
         n ∈ notices ∧ n.expired now = false ∧
           (n.ntype = "change-update" → n.key ∈ changes)) ∧
    (∀ (changes : List String) (now maxN : Nat) (notices : List Notice),
       (notices.filter (keepNotice changes now)).length ≤ maxN →
       pruneNotices changes now maxN notices = notices.filter (keepNotice changes now)) ∧
    (∀ (changes : List String) (now maxN : Nat) (notices : List Notice),
       maxN < (notices.filter (keepNotice changes now)).length →
       (pruneNotices changes now maxN notices).length = maxN ∧
       ∃ removed,
         (notices.filter (keepNotice changes now)).Perm
           (removed ++ pruneNotices changes now maxN notices) ∧
         removed.length = (notices.filter (keepNotice changes now)).length - maxN ∧
         ∀ a ∈ removed, ∀ b ∈ pruneNotices changes now maxN notices,
           a.lastOccurred ≤ b.lastOccurred) := by
  refine ⟨?_, ?_, ?_⟩
  · intro changes now notices n
    rw [List.mem_filter, keepNotice_eq_true]
  · intro changes now maxN notices hle
    unfold pruneNotices
    rw [if_neg (by omega)]
  · intro changes now maxN notices hgt
    have hbranch : pruneNotices changes now maxN notices
        = pruneMaxNotices maxN (notices.filter (keepNotice changes now)) := by
      unfold pruneNotices
      rw [if_pos (by omega)]
    set kept := notices.filter (keepNotice changes now) with hkept
    set sorted := kept.mergeSort (fun a b => a.lastOccurred ≤ b.lastOccurred) with hsorted
    have hlen : sorted.length = kept.length := List.length_mergeSort kept
    have hres : pruneNotices changes now maxN notices
        = sorted.drop (kept.length - maxN) := by
      rw [hbranch]; rfl
    have hlenres : (pruneNotices changes now maxN notices).length = maxN := by
      rw [hres, List.length_drop, hlen]
      omega
    refine ⟨hlenres, sorted.take (kept.length - maxN), ?_, ?_, ?_⟩
    · have hperm : kept.Perm sorted := (List.mergeSort_perm kept _).symm
      rw [hres, List.take_append_drop]
      exact hperm
    · rw [List.length_take, hlen]
      omega
    · have hpair : sorted.Pairwise
          (fun a b => (decide (a.lastOccurred ≤ b.lastOccurred)) = true) :=
        List.sorted_mergeSort
          (fun a b c hab hbc => by
            simp only [decide_eq_true_eq] at hab hbc ⊢; omega)
          (fun a b => by
            simp only [Bool.or_eq_true, decide_eq_true_eq]; omega)
          kept
      have hpair2 : (sorted.take (kept.length - maxN) ++
          sorted.drop (kept.length - maxN)).Pairwise
          (fun a b => (decide (a.lastOccurred ≤ b.lastOccurred)) = true) := by
        rw [List.take_append_drop]
        exact hpair
      have hsplit := (List.pairwise_append.mp hpair2).2.2
      intro a ha b hb
      rw [hres] at hb
      have := hsplit a ha b hb
      simpa using this
  
/-- C8 witness: on a five-notice state with one expired notice, one
dangling change-update notice and cap 2, exactly two notices survive. -/
theorem prune_notices_policy_witness :
    (pruneNotices ["c1"] 10 2
      [⟨none, "warning", "w", 5, some 3⟩, ⟨none, "change-update", "c1", 7, none⟩,
       ⟨none, "change-update", "c9", 8, none⟩, ⟨none, "custom", "x", 1, none⟩,
       ⟨none, "custom", "y", 9, none⟩]).length = 2 := by
  exact (prune_notices_policy.2.2 ["c1"] 10 2
    [⟨none, "warning", "w", 5, some 3⟩, ⟨none, "change-update", "c1", 7, none⟩,
     ⟨none, "change-update", "c9", 8, none⟩, ⟨none, "custom", "x", 1, none⟩,
     ⟨none, "custom", "y", 9, none⟩] (by decide)).1

end StateStore

namespace PlanModel

/-- Entries that match none of the four switch cases are skipped by the
backwards scan. -/
theorem logsToRev_skip {n : String} :
    ∀ (w rest : List String), (∀ e ∈ w, ¬ logMatches n e) →
      logsToRev n (w ++ rest) = logsToRev n rest := by
  intro w
  induction w with
  | nil => intro rest _; rfl
  | cons x w' ih =>
    intro rest h
    have hx := h x (List.mem_cons_self x w')
    unfold logMatches at hx
    push_neg at hx
    obtain ⟨h1, h2, h3, h4⟩ := hx
    rw [List.cons_append, logsToRev, if_neg h1, if_neg h2, if_neg h3, if_neg h4]
    exact ih rest (fun e he => h e (List.mem_cons_of_mem x he))

/-- A matching entry at the scan position decides immediately, with the
switch cases checked in source order. -/
theorem logsToRev_match {n e : String} (rest : List String) (h : logMatches n e) :
    logsToRev n (e :: rest) = logDecision n e := by
  unfold logsToRev logDecision
  by_cases h1 : e = n
  · simp [h1]
  · by_cases h2 : e = "-" ++ n
    · simp [h1, h2]
    · by_cases h3 : e = "all"
      · simp [h1, h2, h3]
      · have h4 : e = "-all" := by
          rcases h with h | h | h | h
          · exact absurd h h1
          · exact absurd h h2
          · exact absurd h h3
          · exact h
        simp [h1, h2, h3, h4]

/-- C9: `LogsTo` scans `t.Services` from the last entry to the first and
returns the decision of the last matching entry in list order (`s.Name`
or `all` ⇒ true, `-s.Name` or `-all` ⇒ false, cases checked in source
order); with no matching entry it returns false. -/
theorem logsTo_last_match_wins :
    (∀ (s : Service) (t : LogTarget) (u v : List String) (e : String),
       t.services = u ++ e :: v → logMatches s.name e →
       (∀ x ∈ v, ¬ logMatches s.name x) →
       s.logsTo t = logDecision s.name e) ∧
    (∀ (s : Service) (t : LogTarget),
       (∀ x ∈ t.services, ¬ logMatches s.name x) → s.logsTo t = false) := by
  constructor
  · intro s t u v e hsvc hmatch hafter
    unfold Service.logsTo
    rw [hsvc, List.reverse_append, List.reverse_cons, List.append_assoc,
      List.singleton_append]
    rw [logsToRev_skip v.reverse (e :: u.reverse)
      (fun x hx => hafter x (List.mem_reverse.mp hx))]
    exact logsToRev_match u.reverse hmatch
  · intro s t h
    unfold Service.logsTo
    rw [show t.services.reverse = t.services.reverse ++ [] from (List.append_nil _).symm]
    rw [logsToRev_skip t.services.reverse []
      (fun x hx => h x (List.mem_reverse.mp hx))]
    rfl

/-- C9 witness: `all` followed by `-web` means service `web` does not
log to the target (the later `-web` wins). -/
theorem logsTo_last_match_wins_witness :
    Service.logsTo { zeroService with name := "web" }
      { name := "t", type := "loki", location := "l", services := ["all", "-web"],
        override := .replace, labels := [] } = false := by
  have h := logsTo_last_match_wins.1 { zeroService with name := "web" }
    { name := "t", type := "loki", location := "l", services := ["all", "-web"],
      override := .replace, labels := [] }
    ["all"] [] "-web" rfl (by right; left; rfl) (by intro x hx; cases hx)
  rw [h]
  decide

end PlanModel

namespace PlanModel

/-- `noBrackets` elementwise. -/
theorem noBrackets_iff {l : List String} :
    noBrackets l ↔ ∀ x ∈ l, x ≠ "[" ∧ x ≠ "]" := by
  unfold noBrackets
  constructor
  · rintro ⟨h1, h2⟩ x hx
    exact ⟨fun he => h1 (he ▸ hx), fun he => h2 (he ▸ hx)⟩
  · intro h
    exact ⟨fun hc => (h _ hc).1 rfl, fun hc => (h _ hc).2 rfl⟩

/-- Scanning bracket-free tokens outside a group accumulates them into
the base command. -/
theorem parseLoop_scan_base :
    ∀ (pre rest : List String) (idx : Nat) (b e : List String),
      (∀ x ∈ pre, x ≠ "[" ∧ x ≠ "]") →
      parseLoop (pre ++ rest) idx false false b e
        = parseLoop rest (idx + pre.length) false false (b ++ pre) e := by
  intro pre
  induction pre with
  | nil => intro rest idx b e _; simp
  | cons x pre' ih =>
    intro rest idx b e h
    have hx := h x (List.mem_cons_self x pre')
    calc parseLoop ((x :: pre') ++ rest) idx false false b e
        = parseLoop (pre' ++ rest) (idx + 1) false false (b ++ [x]) e := by
          rw [List.cons_append, parseLoop]
          simp [hx.1, hx.2]
      _ = parseLoop rest ((idx + 1) + pre'.length) false false ((b ++ [x]) ++ pre') e :=
          ih rest (idx + 1) (b ++ [x]) e (fun y hy => h y (List.mem_cons_of_mem x hy))
      _ = parseLoop rest (idx + (x :: pre').length) false false (b ++ x :: pre') e := by
          have h1 : (idx + 1) + pre'.length = idx + (x :: pre').length := by
            simp [List.length_cons]; omega
          have h2 : (b ++ [x]) ++ pre' = b ++ x :: pre' := by simp
          rw [h1, h2]

/-- Scanning bracket-free tokens inside a group accumulates them into
the extra arguments. -/
theorem parseLoop_scan_group :
    ∀ (mid rest : List String) (idx : Nat) (b e : List String),
      (∀ x ∈ mid, x ≠ "[" ∧ x ≠ "]") →
      parseLoop (mid ++ rest) idx true true b e
        = parseLoop rest (idx + mid.length) true true b (e ++ mid) := by
  intro mid
  induction mid with
  | nil => intro rest idx b e _; simp
  | cons x mid' ih =>
    intro rest idx b e h
    have hx := h x (List.mem_cons_self x mid')
    calc parseLoop ((x :: mid') ++ rest) idx true true b e
        = parseLoop (mid' ++ rest) (idx + 1) true true b (e ++ [x]) := by
          rw [List.cons_append, parseLoop]
          simp [hx.1, hx.2]
      _ = parseLoop rest ((idx + 1) + mid'.length) true true b ((e ++ [x]) ++ mid') :=
          ih rest (idx + 1) b (e ++ [x]) (fun y hy => h y (List.mem_cons_of_mem x hy))
      _ = parseLoop rest (idx + (x :: mid').length) true true b (e ++ x :: mid') := by
          have h1 : (idx + 1) + mid'.length = idx + (x :: mid').length := by
            simp [List.length_cons]; omega
          have h2 : (e ++ [x]) ++ mid' = e ++ x :: mid' := by simp
          rw [h1, h2]

/-- After a closed group, only the end of the tokens succeeds. -/
theorem parseLoop_after_group :
    ∀ (args : List String) (idx : Nat) (b e B E : List String),
      parseLoop args idx false true b e = .ok (B, E) →
      args = [] ∧ B = b ∧ E = e := by
  intro args
  cases args with
  | nil =>
    intro idx b e B E h
    have := Except.ok.inj h
    exact ⟨rfl, (Prod.mk.injEq .. ▸ this).1.symm, (Prod.mk.injEq .. ▸ this).2.symm⟩
  | cons a rest =>
    intro idx b e B E h
    rw [parseLoop] at h
    simp at h

/-- What a successful run starting inside an open group looks like. -/
theorem parseLoop_group_ok :
    ∀ (args : List String) (idx : Nat) (b e B E : List String),
      parseLoop args idx true true b e = .ok (B, E) →
      ∃ mid, (∀ x ∈ mid, x ≠ "[" ∧ x ≠ "]") ∧ B = b ∧ E = e ++ mid ∧
        (args = mid ∨ args = mid ++ ["]"]) := by
  intro args
  induction args with
  | nil =>
    intro idx b e B E h
    have := Except.ok.inj h
    refine ⟨[], by simp, (Prod.mk.injEq .. ▸ this).1.symm, ?_, Or.inl rfl⟩
    rw [List.append_nil]
    exact (Prod.mk.injEq .. ▸ this).2.symm
  | cons a rest ih =>
    intro idx b e B E h
    rw [parseLoop] at h
    by_cases ha1 : a = "["
    · simp [ha1] at h
    · by_cases ha2 : a = "]"
      · simp only [ha1, ha2, if_true, if_false, if_neg, reduceIte] at h
        obtain ⟨hrest, hB, hE⟩ := parseLoop_after_group rest (idx + 1) b e B E h
        subst hrest
        exact ⟨[], by simp, hB, by simpa using hE, Or.inr (by simp [ha2])⟩
      · simp only [ha1, ha2, if_false, if_neg, reduceIte] at h
        obtain ⟨mid', hm', hB, hE, hshape⟩ := ih (idx + 1) b (e ++ [a]) B E h
        refine ⟨a :: mid', ?_, hB, ?_, ?_⟩
        · intro x hx
          rcases List.mem_cons.mp hx with rfl | hx'
          · exact ⟨ha1, ha2⟩
          · exact hm' x hx'
        · rw [hE]; simp
        · rcases hshape with rfl | rfl
          · exact Or.inl rfl
          · exact Or.inr (by simp)

/-- What a successful run in the base state (past the first token) looks
like. -/
theorem parseLoop_base_ok :
    ∀ (args : List String) (idx : Nat) (b e B E : List String), idx ≠ 0 →
      parseLoop args idx false false b e = .ok (B, E) →
      ∃ pre, (∀ x ∈ pre, x ≠ "[" ∧ x ≠ "]") ∧ B = b ++ pre ∧
        ((args = pre ∧ E = e) ∨
         ∃ mid, (∀ x ∈ mid, x ≠ "[" ∧ x ≠ "]") ∧ E = e ++ mid ∧
           (args = pre ++ "[" :: mid ∨ args = pre ++ "[" :: mid ++ ["]"])) := by
  intro args
  induction args with
  | nil =>
    intro idx b e B E _ h
    have := Except.ok.inj h
    refine ⟨[], by simp, ?_, Or.inl ⟨rfl, (Prod.mk.injEq .. ▸ this).2.symm⟩⟩
    rw [List.append_nil]
    exact (Prod.mk.injEq .. ▸ this).1.symm
  | cons a rest ih =>
    intro idx b e B E hidx h
    rw [parseLoop] at h
    by_cases ha1 : a = "["
    · simp only [ha1, if_true, if_neg, hidx, if_false, reduceIte] at h
      obtain ⟨mid, hm, hB, hE, hshape⟩ := parseLoop_group_ok rest (idx + 1) b e B E h
      refine ⟨[], by simp, by simpa using hB, Or.inr ⟨mid, hm, hE, ?_⟩⟩
      rcases hshape with rfl | rfl
      · exact Or.inl (by simp [ha1])
      · exact Or.inr (by simp [ha1])
    · by_cases ha2 : a = "]"
      · simp [ha1, ha2] at h
      · simp only [ha1, ha2, if_false, if_neg, reduceIte] at h
        obtain ⟨pre', hp', hB, hrest⟩ := ih (idx + 1) (b ++ [a]) e B E (by omega) h
        refine ⟨a :: pre', ?_, by rw [hB]; simp, ?_⟩
        · intro x hx
          rcases List.mem_cons.mp hx with rfl | hx'
          · exact ⟨ha1, ha2⟩
          · exact hp' x hx'
        · rcases hrest with ⟨rfl, hEe⟩ | ⟨mid, hm, hE, hshape⟩
          · exact Or.inl ⟨rfl, hEe⟩
          · refine Or.inr ⟨mid, hm, hE, ?_⟩
            rcases hshape with rfl | rfl
            · exact Or.inl (by simp)
            · exact Or.inr (by simp)

end PlanModel

namespace PlanModel

/-- One base-state step over a non-bracket token. -/
theorem parseLoop_step_base (a : String) (rest : List String) (idx : Nat)
    (b e : List String) (h1 : a ≠ "[") (h2 : a ≠ "]") :
    parseLoop (a :: rest) idx false false b e
      = parseLoop rest (idx + 1) false false (b ++ [a]) e := by
  rw [parseLoop]
  simp [h1, h2]

/-- A `[` past the first position opens the group. -/
theorem parseLoop_open_group (E : List String) (idx : Nat) (b e : List String)
    (h : idx ≠ 0) :
    parseLoop ("[" :: E) idx false false b e = parseLoop E (idx + 1) true true b e := by
  rw [parseLoop]
  simp [h]

/-- A `]` inside the group closes it. -/
theorem parseLoop_close_group (rest : List String) (idx : Nat) (b e : List String) :
    parseLoop ("]" :: rest) idx true true b e
      = parseLoop rest (idx + 1) false true b e := by
  rw [parseLoop]
  simp

/-- C7: on the token level, `ParseCommand` succeeds exactly on token
lists with no bracket token at all, or a single `[ ... ]` group (whose
closing `]` may be the final token or missing at the very end) preceded
by a non-empty bracket-free base; the base tokens and the group tokens
are returned. It errors exactly otherwise — in particular on a `[`
inside an open group, a `]` outside a group, a group as first token,
and any token after a closed group, with the four source messages shown
on concrete inputs. -/
theorem parseCommand_bracket_rules :
    (∀ (args B E : List String), parseCommand args = .ok (B, E) ↔
       (noBrackets B ∧ noBrackets E ∧
        ((args = B ∧ E = []) ∨
         (B ≠ [] ∧ (args = B ++ "[" :: E ∨ args = B ++ "[" :: E ++ ["]"]))))) ∧
    (∀ args : List String, (∃ msg, parseCommand args = .error msg) ↔
       ¬ ∃ B E, (noBrackets B ∧ noBrackets E ∧
         ((args = B ∧ E = []) ∨
          (B ≠ [] ∧ (args = B ++ "[" :: E ∨ args = B ++ "[" :: E ++ ["]"]))))) ∧
    parseCommand ["x", "[", "[", "a", "]"] = .error "cannot nest [ ... ] groups" ∧
    parseCommand ["x", "]"] = .error "cannot have ] outside of [ ... ] group" ∧
    parseCommand ["[", "a", "]"] = .error "cannot start command with [ ... ] group" ∧
    parseCommand ["x", "[", "a", "]", "y"]
      = .error "cannot have any arguments after [ ... ] group" := by
  have hiff : ∀ (args B E : List String), parseCommand args = .ok (B, E) ↔
      (noBrackets B ∧ noBrackets E ∧
       ((args = B ∧ E = []) ∨
        (B ≠ [] ∧ (args = B ++ "[" :: E ∨ args = B ++ "[" :: E ++ ["]"])))) := by
    intro args B E
    constructor
    · intro h
      unfold parseCommand at h
      cases args with
      | nil =>
        have hinj := Except.ok.inj h
        obtain ⟨hB, hE⟩ := Prod.mk.injEq .. ▸ hinj
        subst hB; subst hE
        exact ⟨⟨nofun, nofun⟩, ⟨nofun, nofun⟩, Or.inl ⟨rfl, rfl⟩⟩
      | cons a rest =>
        rw [parseLoop] at h
        by_cases ha1 : a = "["
        · simp [ha1] at h
        · by_cases ha2 : a = "]"
          · simp [ha1, ha2] at h
          · simp only [ha1, ha2, if_false, if_neg, reduceIte] at h
            obtain ⟨pre, hp, hB, hrest⟩ := parseLoop_base_ok rest 1 [a] [] B E (by omega) h
            have hBform : B = a :: pre := by rw [hB]; rfl
            have hBnb : noBrackets B := by
              rw [noBrackets_iff, hBform]
              intro x hx
              rcases List.mem_cons.mp hx with rfl | hx'
              · exact ⟨ha1, ha2⟩
              · exact hp x hx'
            rcases hrest with ⟨hargs, hE⟩ | ⟨mid, hm, hE, hshape⟩
            · subst hargs; subst hE
              exact ⟨hBnb, ⟨nofun, nofun⟩, Or.inl ⟨by rw [hBform], rfl⟩⟩
            · have hEform : E = mid := by rw [hE]; rfl
              refine ⟨hBnb, by rw [noBrackets_iff, hEform]; exact hm,
                Or.inr ⟨by rw [hBform]; exact List.cons_ne_nil a pre, ?_⟩⟩
              rcases hshape with rfl | rfl
              · exact Or.inl (by rw [hBform, hEform]; rfl)
              · exact Or.inr (by rw [hBform, hEform]; rfl)
    · rintro ⟨hBnb, hEnb, hshape⟩
      rw [noBrackets_iff] at hBnb hEnb
      rcases hshape with ⟨rfl, rfl⟩ | ⟨hBne, hshape⟩
      · cases args with
        | nil => rfl
        | cons a pre =>
          have ha := hBnb a (List.mem_cons_self a pre)
          have hscan := parseLoop_scan_base pre [] 1 [a] []
            (fun x hx => hBnb x (List.mem_cons_of_mem a hx))
          rw [List.append_nil] at hscan
          unfold parseCommand
          calc parseLoop (a :: pre) 0 false false [] []
              = parseLoop pre 1 false false ([] ++ [a]) [] :=
                parseLoop_step_base a pre 0 [] [] ha.1 ha.2
            _ = parseLoop [] (1 + pre.length) false false ([a] ++ pre) [] := by
                rw [List.nil_append]; exact hscan
            _ = .ok (a :: pre, []) := rfl
      · obtain ⟨a, pre, rfl⟩ := List.exists_cons_of_ne_nil hBne
        have ha := hBnb a (List.mem_cons_self a pre)
        have hbase := parseLoop_scan_base pre ("[" :: E) 1 [a] []
          (fun x hx => hBnb x (List.mem_cons_of_mem a hx))
        have hbase2 := parseLoop_scan_base pre ("[" :: (E ++ ["]"])) 1 [a] []
          (fun x hx => hBnb x (List.mem_cons_of_mem a hx))
        rcases hshape with rfl | rfl
        · have hgrp := parseLoop_scan_group E [] (1 + pre.length + 1) ([a] ++ pre) [] hEnb
          rw [List.append_nil] at hgrp
          unfold parseCommand
          calc parseLoop ((a :: pre) ++ "[" :: E) 0 false false [] []
              = parseLoop (pre ++ "[" :: E) 1 false false ([] ++ [a]) [] := by
                rw [List.cons_append]
                exact parseLoop_step_base a (pre ++ "[" :: E) 0 [] [] ha.1 ha.2
            _ = parseLoop ("[" :: E) (1 + pre.length) false false ([a] ++ pre) [] := by
                rw [List.nil_append]; exact hbase
            _ = parseLoop E (1 + pre.length + 1) true true ([a] ++ pre) [] :=
                parseLoop_open_group E (1 + pre.length) ([a] ++ pre) [] (by omega)
            _ = parseLoop [] (1 + pre.length + 1 + E.length) true true ([a] ++ pre) ([] ++ E) :=
                hgrp
            _ = .ok (a :: pre, E) := rfl
        · have hgrp := parseLoop_scan_group E ["]"] (1 + pre.length + 1) ([a] ++ pre) [] hEnb
          unfold parseCommand
          rw [List.append_assoc]
          show parseLoop (a :: (pre ++ "[" :: (E ++ ["]"]))) 0 false false [] []
            = .ok (a :: pre, E)
          calc parseLoop (a :: (pre ++ "[" :: (E ++ ["]"]))) 0 false false [] []
              = parseLoop (pre ++ "[" :: (E ++ ["]"])) 1 false false ([] ++ [a]) [] :=
                parseLoop_step_base a (pre ++ "[" :: (E ++ ["]"])) 0 [] [] ha.1 ha.2
            _ = parseLoop ("[" :: (E ++ ["]"])) (1 + pre.length) false false ([a] ++ pre) [] := by
                rw [List.nil_append]; exact hbase2
            _ = parseLoop (E ++ ["]"]) (1 + pre.length + 1) true true ([a] ++ pre) [] :=
                parseLoop_open_group (E ++ ["]"]) (1 + pre.length) ([a] ++ pre) [] (by omega)
            _ = parseLoop ["]"] (1 + pre.length + 1 + E.length) true true ([a] ++ pre) ([] ++ E) :=
                hgrp
            _ = parseLoop [] (1 + pre.length + 1 + E.length + 1) false true ([a] ++ pre) ([] ++ E) :=
                parseLoop_close_group [] (1 + pre.length + 1 + E.length) ([a] ++ pre) ([] ++ E)
            _ = .ok (a :: pre, E) := rfl
  refine ⟨hiff, ?_, by decide, by decide, by decide, by decide⟩
  intro args
  constructor
  · rintro ⟨msg, hmsg⟩ ⟨B, E, hsh⟩
    rw [(hiff args B E).mpr hsh] at hmsg
    cases hmsg
  · intro hno
    rcases hp : parseCommand args with msg | pair
    · exact ⟨msg, rfl⟩
    · obtain ⟨B, E⟩ := pair
      exact absurd ⟨B, E, (hiff args B E).mp hp⟩ hno

/-- C7 witness: a command with a closed bracket group parses into its
base and extra tokens. -/
theorem parseCommand_bracket_rules_witness :
    parseCommand ["run", "-v", "[", "--json", "]"] = .ok (["run", "-v"], ["--json"]) :=
  (parseCommand_bracket_rules.1 _ _ _).mpr
    ⟨by decide, by decide, Or.inr ⟨by decide, Or.inr (by decide)⟩⟩

end PlanModel
